import Mathlib

/-!
Verification of the project-dashboard core against its specification.

The frontend source (frontend/src/app/page.tsx, frontend/src/components/ProjectCard.tsx,
frontend/src/components/ProjectModal.tsx, frontend/src/types) is embedded shallowly below;
the backend Store and Scanner (a Python service whose source is not part of this tree)
are modelled from the specification where a claim needs them, and each such definition is
marked "Modelled from the spec".
-/

namespace ProjectDashboard

/-- Embeds the `docs` entry type of `Project` from frontend/src/types:
name, path and an optional kind among openapi, swagger, file, link, markdown. -/
structure DocRef where
  name : String
  path : String
  kind : Option String
deriving DecidableEq

/-- Embeds `custom_links` entries from frontend/src/types: a name and a URL. -/
structure CustomLink where
  name : String
  url : String
deriving DecidableEq

/-- Embeds `custom_docs` entries from frontend/src/types: a name and a path. -/
structure CustomDoc where
  name : String
  path : String
deriving DecidableEq

/-- Embeds the `Project` interface of frontend/src/types (the fields the claims touch).
Optional TypeScript fields become `Option`; `position` is an integer sort key. -/
structure Project where
  id : String
  name : String
  path : String
  tags : List String
  docs : List DocRef
  custom_links : List CustomLink
  custom_docs : List CustomDoc
  vscode_workspace_file : Option String
  frontend_url : Option String
  backend_port : Option String
  frontend_port_override : Option String
  backend_port_override : Option String
  position : Option Int
deriving DecidableEq

/-- A convenient base record for concrete instances used in witnesses. -/
def blankProject : Project :=
  { id := "", name := "", path := "", tags := [], docs := [], custom_links := [],
    custom_docs := [], vscode_workspace_file := none, frontend_url := none,
    backend_port := none, frontend_port_override := none, backend_port_override := none,
    position := none }

/-! ### Character-level string machinery

JavaScript `String.prototype.includes` and `String.prototype.toLowerCase` are modelled
on character lists. -/

/-- Does `needle` occur as a prefix of `hay`? (helper for substring search). -/
def startsWithCh : List Char → List Char → Bool
  | [], _ => true
  | _ :: _, [] => false
  | a :: as, b :: bs => a == b && startsWithCh as bs

/-- Does `needle` occur as a contiguous substring of the second list?
Models JavaScript `hay.includes(needle)` scanning every start position. -/
def containsCh (needle : List Char) : List Char → Bool
  | [] => needle.isEmpty
  | c :: t => startsWithCh needle (c :: t) || containsCh needle t

/-- Models `hay.includes(needle)` on `String`. -/
def strIncludes (hay needle : String) : Bool :=
  containsCh needle.data hay.data

/-- Models JavaScript `s.toLowerCase()` (character-wise lowering). -/
def jsToLower (s : String) : String :=
  String.mk (s.data.map Char.toLower)

/-- The empty needle is found in every haystack, as with JavaScript `includes("")`. -/
theorem containsCh_nil (hay : List Char) : containsCh [] hay = true := by
  cases hay with
  | nil => rfl
  | cons c t => simp [containsCh, startsWithCh]

/-! ### Claim C5 — editor launch target (ProjectCard.tsx line 86, ProjectModal.tsx line 420)

Both call sites launch the editor with the same expression
`project.vscode_workspace_file || project.path`. -/

/-- Embeds the JavaScript expression `field || path`: a present, non-empty string is
truthy and is returned; `undefined` or the empty string falls back to `path`. -/
def jsOrPath (field : Option String) (path : String) : String :=
  match field with
  | some s => if s = "" then path else s
  | none => path

/-- Embeds the editor-launch argument `project.vscode_workspace_file || project.path`
shared by ProjectCard.tsx (line 86) and ProjectModal.tsx (line 420). -/
def editorLaunchTarget (p : Project) : String :=
  jsOrPath p.vscode_workspace_file p.path

/-- C5: the editor launch action targets the workspace-descriptor file whenever
`vscode_workspace_file` is present and non-empty, and the bare project path otherwise;
in particular it never targets the bare directory when a distinct descriptor exists. -/
theorem editor_launch_prefers_workspace_descriptor (p : Project) :
    (∀ w, p.vscode_workspace_file = some w → w ≠ "" → editorLaunchTarget p = w) ∧
    (p.vscode_workspace_file = none → editorLaunchTarget p = p.path) ∧
    (p.vscode_workspace_file = some "" → editorLaunchTarget p = p.path) ∧
    (∀ w, p.vscode_workspace_file = some w → w ≠ "" → w ≠ p.path →
      editorLaunchTarget p ≠ p.path) := by
  refine ⟨?_, ?_, ?_, ?_⟩
  · intro w hw hne
    simp [editorLaunchTarget, jsOrPath, hw, hne]
  · intro hn
    simp [editorLaunchTarget, jsOrPath, hn]
  · intro he
    simp [editorLaunchTarget, jsOrPath, he]
  · intro w hw hne hnp
    simp [editorLaunchTarget, jsOrPath, hw, hne]
    exact hnp

/-- Witness for C5 at a concrete project carrying a workspace descriptor. -/
theorem editor_launch_prefers_workspace_descriptor_witness :
    editorLaunchTarget { blankProject with
        path := "/x/app", vscode_workspace_file := some "/x/app/app.code-workspace" } =
      "/x/app/app.code-workspace" :=
  (editor_launch_prefers_workspace_descriptor _).1 "/x/app/app.code-workspace" rfl (by decide)

/-! ### Claim C6 — tag truncation on the card (ProjectCard.tsx lines 38-47) -/

/-- Embeds the card's rendered tag list `project.tags.slice(0, 3)`
(ProjectCard.tsx line 39). -/
def cardTags (p : Project) : List String :=
  p.tags.take 3

/-- Embeds the card's overflow badge: rendered only under the guard
`project.tags.length > 3`, with text `+` followed by `tags.length - 3`
(ProjectCard.tsx lines 44-46). -/
def cardTagOverflow (p : Project) : Option Nat :=
  if 3 < p.tags.length then some (p.tags.length - 3) else none

/-- Embeds the modal's full tag rendering `project.tags.map(...)`
(ProjectModal.tsx lines 408-412): the record's tag list, untruncated. -/
def modalTags (p : Project) : List String :=
  p.tags

/-- C6: the card renders exactly the first 3 stored tags in order (all of them when
fewer exist), plus an overflow count of total minus 3 exactly when more than 3 exist;
the stored list itself stays intact and is rendered in full by the modal. -/
theorem card_tag_truncation (p : Project) :
    cardTags p ++ p.tags.drop 3 = p.tags ∧
    (cardTags p).length = min 3 p.tags.length ∧
    (3 < p.tags.length → cardTagOverflow p = some (p.tags.length - 3)) ∧
    (p.tags.length ≤ 3 → cardTagOverflow p = none ∧ cardTags p = p.tags) ∧
    modalTags p = p.tags := by
  refine ⟨List.take_append_drop 3 p.tags, ?_, ?_, ?_, rfl⟩
  · simp [cardTags, List.length_take]
  · intro h
    simp [cardTagOverflow, h]
  · intro h
    constructor
    · simp [cardTagOverflow, Nat.not_lt.mpr h]
    · simp [cardTags, List.take_of_length_le h]

/-- Witness for C6 at a project with five tags: three are shown and the badge reads 2. -/
theorem card_tag_truncation_witness :
    cardTags { blankProject with tags := ["python", "fastapi", "react", "docker", "redis"] } =
      ["python", "fastapi", "react"] ∧
    cardTagOverflow { blankProject with
        tags := ["python", "fastapi", "react", "docker", "redis"] } = some 2 := by
  refine ⟨by decide, ?_⟩
  have h := (card_tag_truncation { blankProject with
      tags := ["python", "fastapi", "react", "docker", "redis"] }).2.2.1 (by decide)
  simpa using h

/-! ### Custom-mode sorting (page.tsx lines 1370-1383)

The grid sorts with the comparator `(a.position ?? 999) - (b.position ?? 999)`;
JavaScript `Array.prototype.sort` is a stable comparison sort, modelled here by
`List.insertionSort` over the comparator's order. -/

/-- Embeds the sort key `p.position ?? 999` of the custom comparator. -/
def posKey (p : Project) : Int :=
  p.position.getD 999

/-- The order induced by the comparator `(a.position ?? 999) - (b.position ?? 999)`. -/
def customLE (a b : Project) : Prop :=
  posKey a ≤ posKey b

instance : DecidableRel customLE :=
  fun a b => Int.decLe (posKey a) (posKey b)

instance : IsTotal Project customLE :=
  ⟨fun a b => Int.le_total (posKey a) (posKey b)⟩

instance : IsTrans Project customLE :=
  ⟨fun _ _ _ hab hbc => le_trans hab hbc⟩

/-- Embeds the `'custom'` branch of `sortedProjects` (page.tsx line 1377):
a stable sort by ascending `position ?? 999`. -/
def sortCustom (l : List Project) : List Project :=
  l.insertionSort customLE

/-! ### Drag-and-drop reorder (page.tsx lines 1400-1425) -/

/-- Removes the element at index `i` (helper for `arrayMove`). -/
def removeAt {α : Type} (l : List α) (i : Nat) : List α :=
  l.take i ++ l.drop (i + 1)

/-- Inserts `x` at index `i` (helper for `arrayMove`). -/
def insertAt {α : Type} (l : List α) (i : Nat) (x : α) : List α :=
  l.take i ++ x :: l.drop i

/-- Embeds dnd-kit's `arrayMove(array, from, to)`: the element at `from` is removed
and re-inserted at `to`. Out-of-range `from` leaves the list unchanged (the caller
guards with a `!== -1` check). -/
def arrayMove {α : Type} (l : List α) (src dst : Nat) : List α :=
  match l.get? src with
  | none => l
  | some x => insertAt (removeAt l src) dst x

/-- Embeds `reordered.map((p, i) => (\x7b ...p, position: i \x7d))` (page.tsx line 1413),
generalized over the starting index for the recursion. -/
def reassignFrom (k : Nat) : List Project → List Project
  | [] => []
  | p :: ps => { p with position := some (k : Int) } :: reassignFrom (k + 1) ps

/-- The position reassignment of `handleDragEnd`: index `i` becomes position `i`. -/
def reassignPositions (l : List Project) : List Project :=
  reassignFrom 0 l

/-- Embeds `handleDragEnd` (page.tsx lines 1400-1425): no-op when the drag stays on the
same id or an id is not found; otherwise `arrayMove` then position reassignment. -/
def handleDragEnd (l : List Project) (activeId overId : String) : List Project :=
  if activeId = overId then l
  else
    match l.findIdx? (fun p => p.id == activeId), l.findIdx? (fun p => p.id == overId) with
    | some oldIdx, some newIdx => reassignPositions (arrayMove l oldIdx newIdx)
    | _, _ => l

/-- Embeds deletion of a project from the displayed list: the record is removed and no
remaining `position` is renumbered. -/
def deleteProject (l : List Project) (pid : String) : List Project :=
  l.filter (fun p => p.id != pid)

theorem reassignFrom_map_id (k : Nat) (l : List Project) :
    (reassignFrom k l).map Project.id = l.map Project.id := by
  induction l generalizing k with
  | nil => rfl
  | cons p ps ih => simp [reassignFrom, ih]

theorem reassignFrom_length (k : Nat) (l : List Project) :
    (reassignFrom k l).length = l.length := by
  induction l generalizing k with
  | nil => rfl
  | cons p ps ih => simp [reassignFrom, ih]

theorem reassignFrom_map_position (k : Nat) (l : List Project) :
    (reassignFrom k l).map Project.position =
      (List.range' k l.length).map (fun n => (some (n : Int) : Option Int)) := by
  induction l generalizing k with
  | nil => rfl
  | cons p ps ih => simp [reassignFrom, List.range'_succ, ih]

theorem posKey_reassignFrom_ge (k : Nat) (l : List Project) :
    ∀ q ∈ reassignFrom k l, (k : Int) ≤ posKey q := by
  induction l generalizing k with
  | nil => intro q hq; cases hq
  | cons p ps ih =>
    intro q hq
    rcases List.mem_cons.mp hq with h | h
    · subst h; simp [posKey]
    · have := ih (k + 1) q h
      omega

theorem sorted_reassignFrom (k : Nat) (l : List Project) :
    List.Sorted customLE (reassignFrom k l) := by
  induction l generalizing k with
  | nil => exact List.sorted_nil
  | cons p ps ih =>
    refine List.pairwise_cons.mpr ⟨?_, ih (k + 1)⟩
    intro q hq
    have hk := posKey_reassignFrom_ge (k + 1) ps q hq
    have hh : posKey { p with position := some (k : Int) } = (k : Int) := rfl
    show customLE _ q
    unfold customLE
    rw [hh]
    omega

/-- C2: a drag that moves one project assigns positions 0, 1, 2, ... along the new
order, so custom-mode sorting of the handler's output returns it unchanged, and its id
sequence is exactly the id sequence of the moved list. -/
theorem reorder_then_sort_roundtrip (l : List Project) (activeId overId : String)
    (i j : Nat) (hne : activeId ≠ overId)
    (hi : l.findIdx? (fun p => p.id == activeId) = some i)
    (hj : l.findIdx? (fun p => p.id == overId) = some j) :
    (handleDragEnd l activeId overId).map Project.position =
      (List.range (handleDragEnd l activeId overId).length).map
        (fun n => (some (n : Int) : Option Int)) ∧
    sortCustom (handleDragEnd l activeId overId) = handleDragEnd l activeId overId ∧
    (handleDragEnd l activeId overId).map Project.id = (arrayMove l i j).map Project.id := by
  have hout : handleDragEnd l activeId overId = reassignPositions (arrayMove l i j) := by
    simp [handleDragEnd, hne, hi, hj]
  rw [hout]
  refine ⟨?_, ?_, ?_⟩
  · rw [reassignPositions, reassignFrom_map_position, reassignFrom_length,
      List.range_eq_range']
  · exact (sorted_reassignFrom 0 (arrayMove l i j)).insertionSort_eq
  · exact reassignFrom_map_id 0 (arrayMove l i j)

/-- Three concrete projects for the C2 witness scenario. -/
def reorderWitnessList : List Project :=
  [{ blankProject with id := "id1", position := some 0 },
   { blankProject with id := "id2", position := some 1 },
   { blankProject with id := "id3", position := some 2 }]

/-- Witness for C2: dragging id3 onto id1 yields the order id3, id1, id2, which a
position sort leaves unchanged. -/
theorem reorder_then_sort_roundtrip_witness :
    sortCustom (handleDragEnd reorderWitnessList "id3" "id1") =
      handleDragEnd reorderWitnessList "id3" "id1" ∧
    (handleDragEnd reorderWitnessList "id3" "id1").map Project.id = ["id3", "id1", "id2"] := by
  have h := reorder_then_sort_roundtrip reorderWitnessList "id3" "id1" 2 0
    (by decide) (by decide) (by decide)
  exact ⟨h.2.1, by rw [h.2.2]; decide⟩

/-! ### Claim C7 — sorting by position tolerates gaps -/

theorem nodup_posKey_of_positions (l : List Project)
    (hsome : ∀ p ∈ l, p.position ≠ none)
    (hnd : (l.map Project.position).Nodup) : (l.map posKey).Nodup := by
  have hmm : l.map posKey = (l.map Project.position).map (fun o => o.getD 999) := by
    rw [List.map_map]; rfl
  rw [hmm]
  refine List.Nodup.map_on ?_ hnd
  intro x hx y hy hxy
  rcases List.mem_map.mp hx with ⟨px, hpx, hpxe⟩
  rcases List.mem_map.mp hy with ⟨py, hpy, hpye⟩
  rcases Option.ne_none_iff_exists.mp (hsome px hpx) with ⟨a, ha⟩
  rcases Option.ne_none_iff_exists.mp (hsome py hpy) with ⟨b, hb⟩
  subst hpxe hpye
  rw [← ha, ← hb] at hxy ⊢
  simpa using hxy

theorem pairwise_lt_of_sorted_nodup (l : List Project)
    (hs : List.Sorted customLE l) (hnd : (l.map posKey).Nodup) :
    l.Pairwise (fun a b => posKey a < posKey b) := by
  have hne : l.Pairwise (fun a b => posKey a ≠ posKey b) :=
    List.pairwise_map.mp hnd
  exact (hs.and hne).imp (fun h => lt_of_le_of_ne h.1 h.2)

theorem eq_of_perm_of_pairwise_lt :
    ∀ {l₁ l₂ : List Project}, l₁.Perm l₂ →
      l₁.Pairwise (fun a b => posKey a < posKey b) →
      l₂.Pairwise (fun a b => posKey a < posKey b) → l₁ = l₂ := by
  intro l₁
  induction l₁ with
  | nil => intro l₂ hp _ _; exact (hp.symm.eq_nil).symm
  | cons a t₁ ih =>
    intro l₂ hp h₁ h₂
    cases l₂ with
    | nil => exact absurd hp.eq_nil (by simp)
    | cons b t₂ =>
      by_cases hab : a = b
      · subst hab
        have ht := ih hp.cons_inv (List.pairwise_cons.mp h₁).2 (List.pairwise_cons.mp h₂).2
        rw [ht]
      · exfalso
        have ha2 : a ∈ b :: t₂ := hp.mem_iff.mp (List.mem_cons_self a t₁)
        have hat2 : a ∈ t₂ := by
          rcases List.mem_cons.mp ha2 with h | h
          · exact absurd h hab
          · exact h
        have hba : posKey b < posKey a := (List.pairwise_cons.mp h₂).1 a hat2
        have hb1 : b ∈ a :: t₁ := hp.symm.mem_iff.mp (List.mem_cons_self b t₂)
        have hbt1 : b ∈ t₁ := by
          rcases List.mem_cons.mp hb1 with h | h
          · exact absurd h.symm hab
          · exact h
        have hab' : posKey a < posKey b := (List.pairwise_cons.mp h₁).1 b hbt1
        exact lt_asymm hba hab'

/-- C7: when every project carries a distinct integer position, custom-mode sorting is a
permutation arranging the projects in strictly ascending position order, and deleting a
project commutes with the sort — remaining projects keep their relative display order,
with no renumbering. -/
theorem position_sort_tolerates_gaps (l : List Project)
    (hsome : ∀ p ∈ l, p.position ≠ none)
    (hnd : (l.map Project.position).Nodup) :
    (sortCustom l).Perm l ∧
    (sortCustom l).Pairwise (fun a b => posKey a < posKey b) ∧
    ∀ pid, sortCustom (deleteProject l pid) = deleteProject (sortCustom l) pid := by
  have hkey : (l.map posKey).Nodup := nodup_posKey_of_positions l hsome hnd
  have hperm : (sortCustom l).Perm l := List.perm_insertionSort customLE l
  have hsorted : List.Sorted customLE (sortCustom l) := List.sorted_insertionSort customLE l
  have hkey_sorted : ((sortCustom l).map posKey).Nodup :=
    ((hperm.map posKey).nodup_iff).mpr hkey
  refine ⟨hperm, pairwise_lt_of_sorted_nodup _ hsorted hkey_sorted, ?_⟩
  intro pid
  have hpermL : (sortCustom (deleteProject l pid)).Perm (deleteProject l pid) :=
    List.perm_insertionSort customLE _
  have hpermR : (deleteProject (sortCustom l) pid).Perm (deleteProject l pid) :=
    hperm.filter _
  have hsubL : (deleteProject l pid).Sublist l := List.filter_sublist l
  have hkeyL : ((sortCustom (deleteProject l pid)).map posKey).Nodup :=
    ((hpermL.map posKey).nodup_iff).mpr ((hsubL.map posKey).nodup hkey)
  have hsubR : (deleteProject (sortCustom l) pid).Sublist (sortCustom l) :=
    List.filter_sublist _
  have hkeyR : ((deleteProject (sortCustom l) pid).map posKey).Nodup :=
    (hsubR.map posKey).nodup hkey_sorted
  refine eq_of_perm_of_pairwise_lt (hpermL.trans hpermR.symm) ?_ ?_
  · exact pairwise_lt_of_sorted_nodup _ (List.sorted_insertionSort customLE _) hkeyL
  · exact pairwise_lt_of_sorted_nodup _ (List.Pairwise.sublist hsubR hsorted) hkeyR

/-- Concrete projects with gapped positions for the C7 witness. -/
def gapWitnessList : List Project :=
  [{ blankProject with id := "idA", position := some 42 },
   { blankProject with id := "idB", position := some 5 },
   { blankProject with id := "idC", position := some 7 }]

/-- Witness for C7: with gapped positions 42, 5, 7, deleting idB commutes with the
position sort. -/
theorem position_sort_tolerates_gaps_witness :
    sortCustom (deleteProject gapWitnessList "idB") =
      deleteProject (sortCustom gapWitnessList) "idB" :=
  (position_sort_tolerates_gaps gapWitnessList (by decide) (by decide)).2.2 "idB"

/-! ### Claim C10 — search filtering (page.tsx lines 1385-1392) -/

/-- Embeds the filter predicate of `filteredProjects`: with `q = searchQuery.toLowerCase()`,
a project passes when its lowercased name, lowercased path, or some lowercased tag
contains `q`. -/
def matchesQuery (query : String) (p : Project) : Bool :=
  let q := jsToLower query
  strIncludes (jsToLower p.name) q || strIncludes (jsToLower p.path) q ||
    p.tags.any (fun t => strIncludes (jsToLower t) q)

/-- Embeds `filteredProjects` (page.tsx lines 1385-1392): `sortedProjects.filter(...)`. -/
def filteredProjects (query : String) (l : List Project) : List Project :=
  l.filter (matchesQuery query)

/-- C10: filtering is case-insensitive and order-preserving — the result is a sublist of
the input whose members are exactly the projects matching the lowercased query in name,
path or some tag, and the empty query keeps the whole list. -/
theorem search_filter_characterization (query : String) (l : List Project) :
    (filteredProjects query l).Sublist l ∧
    (∀ p, p ∈ filteredProjects query l ↔ p ∈ l ∧
      (strIncludes (jsToLower p.name) (jsToLower query) = true ∨
       strIncludes (jsToLower p.path) (jsToLower query) = true ∨
       ∃ t ∈ p.tags, strIncludes (jsToLower t) (jsToLower query) = true)) ∧
    filteredProjects "" l = l := by
  refine ⟨List.filter_sublist l, ?_, ?_⟩
  · intro p
    rw [filteredProjects, List.mem_filter]
    simp [matchesQuery, List.any_eq_true, Bool.or_eq_true, or_assoc]
  · rw [filteredProjects]
    refine List.filter_eq_self.mpr ?_
    intro p _
    have hq : (jsToLower "").data = [] := rfl
    simp [matchesQuery, strIncludes, hq, containsCh_nil]

/-! ### Claims C8 and C9 — `formatUrl` (page.tsx lines 1193-1218)

The browser URL object is modelled as a record of its used components; the `new URL(...)`
constructor, which can throw, is modelled as an abstract parse function returning
`Option UrlObj`, and the surrounding `try/catch` as the `none` branch. -/

/-- The components of a parsed browser URL that `formatUrl` reads or writes. -/
structure UrlObj where
  scheme : String
  hostname : String
  port : String
  pathname : String
  search : String
deriving DecidableEq

/-- Models `urlObj.toString()`: re-serialization of the components. -/
def serializeUrl (u : UrlObj) : String :=
  u.scheme ++ "://" ++ u.hostname ++ (if u.port = "" then "" else ":" ++ u.port) ++
    u.pathname ++ u.search

/-- Models JavaScript `s || undefined` on an optional string field: the empty string is
falsy and becomes `undefined`. -/
def jsTruthy (o : Option String) : Option String :=
  match o with
  | some s => if s = "" then none else some s
  | none => none

/-- Embeds `project?.frontend_port_override || undefined` (page.tsx line 1197). -/
def feOverrideOf (proj : Option Project) : Option String :=
  match proj with
  | some p => jsTruthy p.frontend_port_override
  | none => none

/-- Embeds `project?.backend_port_override || project?.backend_port || undefined`
(page.tsx line 1198). -/
def beOverrideOf (proj : Option Project) : Option String :=
  match proj with
  | some p =>
    match jsTruthy p.backend_port_override with
    | some s => some s
    | none => jsTruthy p.backend_port
  | none => none

/-- Embeds the `looksBackend` test (page.tsx lines 1200-1201): the lowercased pathname
contains "api", "swagger", "redoc" or "openapi". -/
def looksBackendPath (pathname : String) : Bool :=
  let hint := jsToLower pathname
  strIncludes hint "api" || strIncludes hint "swagger" || strIncludes hint "redoc" ||
    strIncludes hint "openapi"

/-- Embeds the `isLocalHost` test (page.tsx line 1199): hostname is localhost, 127.0.0.1
or the page's own hostname. -/
def isLocalHostname (pageHost : String) (h : String) : Bool :=
  h == "localhost" || h == "127.0.0.1" || h == pageHost

/-- Embeds the mutation of `urlObj` inside `formatUrl` (page.tsx lines 1203-1213):
for local URLs, rewrite the hostname to the page's, pick an override port by the
backend-looking path test, then swap default ports 37452/37453 to the overrides. -/
def formatUrlObj (pageHost : String) (proj : Option Project) (u : UrlObj) : UrlObj :=
  let feO := feOverrideOf proj
  let beO := beOverrideOf proj
  let lb := looksBackendPath u.pathname
  if isLocalHostname pageHost u.hostname then
    let u1 := { u with hostname := pageHost }
    let u2 :=
      if lb then
        match beO with
        | some b => { u1 with port := b }
        | none => u1
      else
        match feO with
        | some f => { u1 with port := f }
        | none => u1
    let u3 :=
      if u2.port = "37452" then
        match feO with
        | some f => { u2 with port := f }
        | none => u2
      else u2
    if u3.port = "37453" then
      match beO with
      | some b => { u3 with port := b }
      | none => u3
    else u3
  else u

/-- Embeds `formatUrl` (page.tsx lines 1193-1218). `hasWindow` models the
`typeof window === "undefined"` guard, `parse` models `new URL(url, origin)` and
`none` its thrown failure, caught by the `catch` branch. -/
def formatUrl (hasWindow : Bool) (parse : String → Option UrlObj) (pageHost : String)
    (proj : Option Project) (url : String) : String :=
  if !hasWindow || url = "" then url
  else
    match parse url with
    | none => url
    | some u => serializeUrl (formatUrlObj pageHost proj u)

/-- C8: `formatUrl` is total and falls back to the identity — an unparseable input, an
empty input, and the windowless environment all return the input string unchanged. -/
theorem formatUrl_identity_fallback (hasWindow : Bool) (parse : String → Option UrlObj)
    (pageHost : String) (proj : Option Project) (url : String) :
    (parse url = none → formatUrl hasWindow parse pageHost proj url = url) ∧
    (url = "" → formatUrl hasWindow parse pageHost proj url = url) ∧
    (hasWindow = false → formatUrl hasWindow parse pageHost proj url = url) := by
  refine ⟨?_, ?_, ?_⟩
  · intro hp
    unfold formatUrl
    split
    · rfl
    · rw [hp]
  · intro he
    simp [formatUrl, he]
  · intro hw
    simp [formatUrl, hw]

/-- Witness for C8: a parse that fails returns the input unchanged. -/
theorem formatUrl_identity_fallback_witness :
    formatUrl true (fun _ => none) "myhost" none "http://%%bad" = "http://%%bad" :=
  (formatUrl_identity_fallback true (fun _ => none) "myhost" none "http://%%bad").1 rfl

/-- The port that claim C9 predicts for a local URL: the backend override exactly when
the path looks backend, the frontend override otherwise. -/
def claimedPort (feO beO : Option String) (lb : Bool) (port0 : String) : String :=
  if lb then
    match beO with
    | some b => b
    | none => port0
  else
    match feO with
    | some f => f
    | none => port0

/-- The default-port swap the code performs after the override choice
(page.tsx lines 1211-1212). -/
def swapDefaults (feO beO : Option String) (p : String) : String :=
  let p1 :=
    if p = "37452" then
      match feO with
      | some f => f
      | none => p
    else p
  if p1 = "37453" then
    match beO with
    | some b => b
    | none => p1
  else p1

/-- Claim C9's port rule as stated: on every local URL the resulting port is the backend
override when the path looks backend and the frontend override otherwise. -/
def portOverrideClaim : Prop :=
  ∀ (pageHost : String) (proj : Option Project) (u : UrlObj),
    isLocalHostname pageHost u.hostname = true →
    (formatUrlObj pageHost proj u).port =
      claimedPort (feOverrideOf proj) (beOverrideOf proj) (looksBackendPath u.pathname) u.port

/-- Counterexample to C9 as stated: for the local URL http://localhost:37452/api with a
frontend override 4000 and no backend override, the path looks backend yet the code
applies the frontend override through the default-port swap, giving port 4000 where the
claim predicts the port stays 37452. -/
theorem formatUrl_port_choice_counterexample : ¬ portOverrideClaim := by
  intro h
  have h2 := h "myhost"
    (some { blankProject with frontend_port_override := some "4000" })
    { scheme := "http", hostname := "localhost", port := "37452", pathname := "/api",
      search := "" }
    (by decide)
  revert h2
  decide

/-- C9 amended: a parseable URL whose hostname is not localhost, 127.0.0.1 or the page's
hostname is left entirely unchanged and re-serialized as is; on local URLs the hostname
is rewritten to the page's and the port is the claimed override choice followed by the
default-port swap: a resulting port 37452 becomes the frontend override and then a
resulting port 37453 becomes the backend override, when set. -/
theorem formatUrl_local_rewrite (pageHost : String) (proj : Option Project) (u : UrlObj) :
    (isLocalHostname pageHost u.hostname = false → formatUrlObj pageHost proj u = u) ∧
    (∀ parse url, isLocalHostname pageHost u.hostname = false → parse url = some u →
      url ≠ "" → formatUrl true parse pageHost proj url = serializeUrl u) ∧
    (isLocalHostname pageHost u.hostname = true →
      (formatUrlObj pageHost proj u).hostname = pageHost ∧
      (formatUrlObj pageHost proj u).pathname = u.pathname ∧
      (formatUrlObj pageHost proj u).scheme = u.scheme ∧
      (formatUrlObj pageHost proj u).port =
        swapDefaults (feOverrideOf proj) (beOverrideOf proj)
          (claimedPort (feOverrideOf proj) (beOverrideOf proj)
            (looksBackendPath u.pathname) u.port)) := by
  refine ⟨?_, ?_, ?_⟩
  · intro h
    simp [formatUrlObj, h]
  · intro parse url h hp hu
    have hobj : formatUrlObj pageHost proj u = u := by simp [formatUrlObj, h]
    simp [formatUrl, hu, hp, hobj]
  · intro h
    cases hlb : looksBackendPath u.pathname <;>
      cases hbe : beOverrideOf proj <;>
        cases hfe : feOverrideOf proj <;>
          simp [formatUrlObj, claimedPort, swapDefaults, h, hlb, hbe, hfe] <;>
            split_ifs <;> simp_all

/-- Witness for C9 amended, at a non-local URL: the object is untouched. -/
theorem formatUrl_local_rewrite_witness :
    formatUrlObj "myhost" none
      { scheme := "https", hostname := "example.com", port := "8443",
        pathname := "/api", search := "" } =
      { scheme := "https", hostname := "example.com", port := "8443",
        pathname := "/api", search := "" } :=
  (formatUrl_local_rewrite "myhost" none _).1 (by decide)

/-! ### Claim C1 — backend-port detection waterfall

The Scanner is a backend Python service whose source is not under src/; the following
definitions are modelled from the specification (section 4.1 and the technical
documentation's "Port Detection Priority"). -/

/-- Leading decimal digits of a character list (the digit group after "localhost:"). -/
def takeDigits : List Char → List Char
  | [] => []
  | c :: t => if c.isDigit then c :: takeDigits t else []

/-- Numeric value of a decimal digit list. -/
def digitsVal (ds : List Char) : Nat :=
  ds.foldl (fun a c => a * 10 + (c.toNat - 48)) 0

/-- Scans a character list for an occurrence of "localhost:" followed by at least one
digit, returning the first such port value. -/
def findLocalhostPort : List Char → Option Nat
  | [] => none
  | c :: t =>
    if startsWithCh ("localhost:".data) (c :: t) then
      let ds := takeDigits ((c :: t).drop 10)
      if ds.isEmpty then findLocalhostPort t else some (digitsVal ds)
    else findLocalhostPort t

/-- Modelled from the spec: the Scanner's prose-documentation detector (missing backend
source) — a line mentioning "backend" or "api" near a localhost:port pattern yields
that port. -/
def markdownBackendPort (lines : List String) : Option Nat :=
  lines.findSome? (fun line =>
    let l := jsToLower line
    if strIncludes l "backend" || strIncludes l "api" then findLocalhostPort l.data
    else none)

/-- Modelled from the spec: the directory-snapshot facts consumed by the backend-port
waterfall of the missing Scanner — declared container-descriptor service ports, prose
documentation lines, a port found in frontend configuration, and whether a backend
framework tag was independently detected. -/
structure DirSnapshot where
  composeServicePorts : List Nat
  readmeLines : List String
  frontendConfigApiPort : Option Nat
  hasFastApiTag : Bool

/-- Modelled from the spec: the backend-port waterfall in its fixed priority order —
container descriptor, prose documentation, frontend configuration, then the framework
default 8000 only under a detected backend-framework tag. -/
def detectBackendPort (s : DirSnapshot) : Option Nat :=
  match s.composeServicePorts.head? with
  | some p => some p
  | none =>
    match markdownBackendPort s.readmeLines with
    | some p => some p
    | none =>
      match s.frontendConfigApiPort with
      | some p => some p
      | none => if s.hasFastApiTag then some 8000 else none

/-- Modelled from the spec: the four port detectors, each paired with its priority rank. -/
def detectorList : List (Nat × (DirSnapshot → Option Nat)) :=
  [(1, fun s => s.composeServicePorts.head?),
   (2, fun s => markdownBackendPort s.readmeLines),
   (3, fun s => s.frontendConfigApiPort),
   (4, fun s => if s.hasFastApiTag then some 8000 else none)]

/-- Runs the detectors in the given execution order, recording each hit with the
priority of the detector that produced it. -/
def detectorHits (order : List (Nat × (DirSnapshot → Option Nat))) (s : DirSnapshot) :
    List (Nat × Nat) :=
  order.filterMap (fun d => (d.2 s).map (fun p => (d.1, p)))

/-- Selects the hit whose detector has the least priority rank. -/
def bestHit : List (Nat × Nat) → Option (Nat × Nat)
  | [] => none
  | h :: t =>
    match bestHit t with
    | none => some h
    | some m => if h.1 < m.1 then some h else some m

/-- Modelled from the spec: resolution of the backend port when the detectors run in an
arbitrary order — all hits are collected and the highest-priority one is kept. -/
def resolveBackendPort (order : List (Nat × (DirSnapshot → Option Nat)))
    (s : DirSnapshot) : Option Nat :=
  (bestHit (detectorHits order s)).map (fun h => h.2)

theorem bestHit_mem : ∀ (l : List (Nat × Nat)) (m : Nat × Nat),
    bestHit l = some m → m ∈ l := by
  intro l
  induction l with
  | nil => intro m h; exact absurd h (by simp [bestHit])
  | cons h t ih =>
    intro m hm
    rcases hb : bestHit t with _ | m' <;> simp [bestHit, hb] at hm
    · rw [← hm]
      exact List.mem_cons_self h t
    · by_cases hc : h.1 < m'.1
      · rw [if_pos hc] at hm
        simp at hm
        rw [← hm]
        exact List.mem_cons_self h t
      · rw [if_neg hc] at hm
        simp at hm
        rw [← hm]
        exact List.mem_cons_of_mem h (ih m' hb)

theorem bestHit_prio_one (p : Nat) :
    ∀ (l : List (Nat × Nat)), (1, p) ∈ l → (∀ q ∈ l, q ≠ (1, p) → 1 < q.1) →
      bestHit l = some (1, p) := by
  intro l
  induction l with
  | nil => intro h; cases h
  | cons h t ih =>
    intro hmem hmin
    by_cases hh : h = (1, p)
    · subst hh
      rcases hb : bestHit t with _ | m
      · simp [bestHit, hb]
      · have hm : m ∈ t := bestHit_mem t m hb
        by_cases hmp : m = (1, p)
        · simp [bestHit, hb, hmp]
        · have h1 : 1 < m.1 := hmin m (List.mem_cons_of_mem _ hm) hmp
          simp [bestHit, hb]
          intro hle
          exact absurd hle (by omega)
    · have ht : (1, p) ∈ t := by
        rcases List.mem_cons.mp hmem with he | ht
        · exact absurd he.symm hh
        · exact ht
      have hbt : bestHit t = some (1, p) :=
        ih ht (fun q hq hq2 => hmin q (List.mem_cons_of_mem _ hq) hq2)
      have h1 : 1 < h.1 := hmin h (List.mem_cons_self h t) hh
      simp [bestHit, hbt]
      intro h0
      exact absurd h0 (by omega)

/-- C1: the port waterfall has fixed priority — when the container descriptor declares a
backend port, that port is resolved, whatever the prose documentation, frontend
configuration or framework tags say, and regardless of the order in which the detectors
run. -/
theorem container_port_wins (order : List (Nat × (DirSnapshot → Option Nat)))
    (s : DirSnapshot) (p : Nat) (rest : List Nat)
    (horder : order.Perm detectorList)
    (hcompose : s.composeServicePorts = p :: rest) :
    resolveBackendPort order s = some p ∧ detectBackendPort s = some p := by
  have hhead : s.composeServicePorts.head? = some p := by rw [hcompose]; rfl
  constructor
  · have hperm : (detectorHits order s).Perm (detectorHits detectorList s) :=
      horder.filterMap _
    have hmem1 : (1, p) ∈ detectorHits detectorList s := by
      simp [detectorHits, detectorList, List.filterMap_cons, hhead]
    have htail : ∀ q ∈ detectorHits detectorList s, q ≠ (1, p) → 1 < q.1 := by
      intro q hq hne
      rcases List.mem_filterMap.mp hq with ⟨d, hd, hmap⟩
      rcases Option.map_eq_some'.mp hmap with ⟨v, hv, hqe⟩
      fin_cases hd
      · exfalso
        apply hne
        rw [← hqe]
        have : v = p := by
          have := hv
          simp only [hhead] at this
          exact (Option.some_inj.mp this).symm
        rw [this]
      · rw [← hqe]; omega
      · rw [← hqe]; omega
      · rw [← hqe]; omega
    have hmem1' : (1, p) ∈ detectorHits order s := hperm.mem_iff.mpr hmem1
    have hmin' : ∀ q ∈ detectorHits order s, q ≠ (1, p) → 1 < q.1 :=
      fun q hq => htail q (hperm.mem_iff.mp hq)
    have hb := bestHit_prio_one p (detectorHits order s) hmem1' hmin'
    simp [resolveBackendPort, hb]
  · simp [detectBackendPort, hhead]

/-- The C1 scenario: a compose descriptor exposing 8080 next to a README claiming the
API runs on localhost:3000. -/
def scenarioSnapshot : DirSnapshot :=
  { composeServicePorts := [8080],
    readmeLines := ["API runs on localhost:3000"],
    frontendConfigApiPort := none,
    hasFastApiTag := false }

/-- Witness for C1: even with the detectors run in reverse order, the resolved backend
port is 8080, while the prose detector alone would have said 3000. -/
theorem container_port_wins_witness :
    resolveBackendPort detectorList.reverse scenarioSnapshot = some 8080 ∧
    detectBackendPort scenarioSnapshot = some 8080 ∧
    markdownBackendPort scenarioSnapshot.readmeLines = some 3000 := by
  have h := container_port_wins detectorList.reverse scenarioSnapshot 8080 []
    (List.reverse_perm detectorList) rfl
  exact ⟨h.1, h.2, by decide⟩

/-! ### Claims C3 and C4 — the Store

The Store is part of the backend Python service whose source is not under src/; the
following definitions are modelled from the specification (section 4.2). -/

/-- Modelled from the spec: the Store's typed errors — duplicate path on Add, and an
unknown path or id. -/
inductive StoreError
  | duplicatePath
  | notFound
deriving DecidableEq

/-- Modelled from the spec: the ephemeral Scanner output merged into a Project on add
and refresh. -/
structure ScanResult where
  tags : List String
  docs : List DocRef
  backend_port : Option String
  frontend_url : Option String
deriving DecidableEq

/-- Modelled from the spec: the Store — the durable project list plus an id counter. -/
structure Store where
  projects : List Project
  nextId : Nat
deriving DecidableEq

/-- Modelled from the spec: PathResolver case-resolution (missing backend source) — the
first on-disk entry whose case-insensitive spelling matches the query, returned in its
on-disk casing. -/
def resolveCase (disk : List String) (p : String) : Option String :=
  disk.find? (fun e => jsToLower e == jsToLower p)

/-- Modelled from the spec: Add allocates position equal to the current maximum plus one. -/
def maxPosition (l : List Project) : Int :=
  l.foldr (fun p m => max (p.position.getD 0) m) 0

/-- Modelled from the spec: Store.Add — rejects when the case-resolved path is already
present, otherwise resolves the case-correct path, runs the Scanner, allocates a fresh
id and appends the new record with position max + 1. -/
def addProject (disk : List String) (scan : String → ScanResult) (st : Store)
    (path : String) : Except StoreError Store :=
  match resolveCase disk path with
  | none => Except.error StoreError.notFound
  | some canonical =>
    if st.projects.any (fun p => p.path == canonical) then
      Except.error StoreError.duplicatePath
    else
      let sr := scan canonical
      Except.ok
        { projects := st.projects ++
            [{ blankProject with
                id := toString st.nextId, name := canonical, path := canonical,
                tags := sr.tags, docs := sr.docs, backend_port := sr.backend_port,
                frontend_url := sr.frontend_url,
                position := some (maxPosition st.projects + 1) }],
          nextId := st.nextId + 1 }

/-- Modelled from the spec: Store.Refresh — re-runs the Scanner on the stored path and
replaces tags, auto-docs, detected ports and the frontend URL with the fresh output,
never discarding custom links, custom docs or port overrides. -/
def refreshProject (scan : String → ScanResult) (st : Store) (pid : String) :
    Except StoreError Store :=
  if st.projects.any (fun p => p.id == pid) then
    Except.ok
      { st with
        projects := st.projects.map (fun p =>
          if p.id == pid then
            let sr := scan p.path
            { p with
                tags := sr.tags,
                docs := sr.docs,
                backend_port := sr.backend_port,
                frontend_url := sr.frontend_url }
          else p) }
  else Except.error StoreError.notFound

/-- C3: Add is idempotent on path up to case resolution — when a path and a case-variant
of it resolve to the same on-disk entry, a successful Add of the first makes the Add of
the second fail as a duplicate, and the Store then holds exactly one record with that
canonical path. -/
theorem add_idempotent_on_path (disk : List String) (scan : String → ScanResult)
    (st st₁ : Store) (pa pb c : String)
    (hPa : resolveCase disk pa = some c)
    (hPb : resolveCase disk pb = some c)
    (hadd : addProject disk scan st pa = Except.ok st₁) :
    addProject disk scan st₁ pb = Except.error StoreError.duplicatePath ∧
    (st₁.projects.filter (fun q => q.path == c)).length = 1 := by
  simp only [addProject, hPa] at hadd
  by_cases hdup : st.projects.any (fun p => p.path == c)
  · rw [if_pos hdup] at hadd
    simp at hadd
  · rw [if_neg hdup] at hadd
    simp only [Except.ok.injEq] at hadd
    constructor
    · have hmem : st₁.projects.any (fun p => p.path == c) = true := by
        rw [← hadd]
        simp [List.any_append]
      simp only [addProject, hPb]
      rw [if_pos hmem]
    · rw [← hadd]
      rw [List.filter_append]
      have h1 : st.projects.filter (fun q => q.path == c) = [] := by
        rw [List.filter_eq_nil_iff]
        intro q hq
        intro hqc
        exact hdup (List.any_eq_true.mpr ⟨q, hq, hqc⟩)
      simp [h1]

/-- The store reached after adding the on-disk path /x/y to an empty store. -/
def addWitnessStore : Store :=
  { projects :=
      [{ blankProject with
          id := "0",
          name := "/x/y",
          path := "/x/y",
          position := some 1 }],
    nextId := 1 }

/-- Witness for C3: on-disk casing /x/y; adding /x/Y succeeds and then adding /x/y is
rejected as a duplicate. -/
theorem add_idempotent_on_path_witness :
    addProject ["/x/y"]
      (fun _ => { tags := [], docs := [], backend_port := none, frontend_url := none })
      addWitnessStore "/x/y" =
      Except.error StoreError.duplicatePath :=
  (add_idempotent_on_path ["/x/y"]
    (fun _ => { tags := [], docs := [], backend_port := none, frontend_url := none })
    { projects := [], nextId := 0 } addWitnessStore "/x/Y" "/x/y" "/x/y"
    rfl rfl rfl).1

/-- The user-owned data of a record that Refresh must keep byte-for-byte. -/
def userData (p : Project) :
    String × String × List CustomLink × List CustomDoc × Option String ×
      Option String × Option Int :=
  (p.id, p.path, p.custom_links, p.custom_docs, p.frontend_port_override,
    p.backend_port_override, p.position)

/-- C4: Refresh never discards user-added data — after a successful Refresh every
record's id, path, custom links, custom docs, port overrides and position are unchanged,
while the refreshed record's tags, auto-docs, detected backend port and frontend URL are
exactly the fresh scan output for its path. -/
theorem refresh_preserves_user_data (scan : String → ScanResult) (st st' : Store)
    (pid : String) (h : refreshProject scan st pid = Except.ok st') :
    st'.projects.map userData = st.projects.map userData ∧
    (∀ p' ∈ st'.projects, p'.id = pid →
      p'.tags = (scan p'.path).tags ∧ p'.docs = (scan p'.path).docs ∧
      p'.backend_port = (scan p'.path).backend_port ∧
      p'.frontend_url = (scan p'.path).frontend_url) := by
  unfold refreshProject at h
  by_cases hex : st.projects.any (fun p => p.id == pid)
  · rw [if_pos hex] at h
    simp only [Except.ok.injEq] at h
    constructor
    · rw [← h]
      simp only [List.map_map]
      apply List.map_congr_left
      intro p _
      by_cases hp : p.id = pid <;> simp [userData, hp]
    · intro p' hp' hid
      rw [← h] at hp'
      simp only [List.mem_map] at hp'
      rcases hp' with ⟨p, hp, hpe⟩
      by_cases hpp : p.id = pid
      · rw [← hpe]
        simp [hpp]
      · exfalso
        rw [← hpe] at hid
        simp [hpp] at hid
  · rw [if_neg hex] at h
    simp at h

/-- A one-project store whose record carries custom links, docs and a port override. -/
def refreshWitnessStore : Store :=
  { projects :=
      [{ blankProject with
          id := "p1",
          name := "demo",
          path := "/proj",
          tags := ["old"],
          custom_links := [{ name := "Jira", url := "https://jira.example" }],
          custom_docs := [{ name := "Guide", path := "/proj/guide.md" }],
          backend_port_override := some "9999",
          position := some 3 }],
    nextId := 2 }

/-- The fresh scan output used by the C4 witness. -/
def refreshWitnessScan : String → ScanResult :=
  fun _ =>
    { tags := ["python", "fastapi"],
      docs := [{ name := "README.md", path := "/proj/README.md", kind := some "markdown" }],
      backend_port := some "8000",
      frontend_url := some "http://localhost:5173" }

/-- The store after the C4 witness refresh. -/
def refreshWitnessStoreAfter : Store :=
  { projects :=
      [{ blankProject with
          id := "p1",
          name := "demo",
          path := "/proj",
          tags := ["python", "fastapi"],
          docs := [{ name := "README.md", path := "/proj/README.md", kind := some "markdown" }],
          custom_links := [{ name := "Jira", url := "https://jira.example" }],
          custom_docs := [{ name := "Guide", path := "/proj/guide.md" }],
          backend_port := some "8000",
          frontend_url := some "http://localhost:5173",
          backend_port_override := some "9999",
          position := some 3 }],
    nextId := 2 }

/-- Witness for C4: refreshing the concrete store keeps the custom links, custom docs,
override and position intact. -/
theorem refresh_preserves_user_data_witness :
    refreshWitnessStoreAfter.projects.map userData =
      refreshWitnessStore.projects.map userData :=
  (refresh_preserves_user_data refreshWitnessScan refreshWitnessStore
    refreshWitnessStoreAfter "p1" rfl).1

end ProjectDashboard
